import Mathlib

/-!
# Verification of the undermoon proxy core

A shallow embedding of the slot router (src/proxy/slot.rs), the RESP
decoder (src/protocol/decoder.rs), the meta manager (src/proxy/manager.rs),
the session pipeline (src/proxy/session.rs) and the coordinator sync loop
(src/coordinator/sync.rs), together with theorems settling the frozen
claims about them.

Bytes are modelled as natural numbers below 256, byte streams as lists,
machine integers as Nat or Int with explicit reduction mod 2^w where
overflow matters, and fallible code as Except.
-/

namespace Undermoon

/-! ## slot.rs: CRC16 XMODEM and the slot map -/

/-- Source constant SLOT_NUM in src/proxy/slot.rs. -/
def SLOT_NUM : Nat := 16384

/-- One bit step of CRC16 XMODEM (polynomial 0x1021 = 4129, MSB first),
on a 16-bit register kept below 2^16 by explicit masking. -/
def crc16Bit (crc : Nat) : Nat :=
  if crc &&& 32768 = 0 then (crc <<< 1) &&& 65535
  else ((crc <<< 1) ^^^ 4129) &&& 65535

/-- Process one byte of CRC16 XMODEM: xor the byte into the high half of
the register, then run eight bit steps. -/
def crc16Byte (crc b : Nat) : Nat :=
  let c := crc ^^^ ((b &&& 255) <<< 8)
  crc16Bit (crc16Bit (crc16Bit (crc16Bit (crc16Bit (crc16Bit (crc16Bit (crc16Bit c)))))))

/-- CRC16 XMODEM of a byte list, initial value 0, as computed by the crc16
crate used in src/proxy/slot.rs. -/
def crc16 (data : List Nat) : Nat :=
  data.foldl crc16Byte 0

namespace SlotMap

/-- Embedding of SlotMap::get_slot (src/proxy/slot.rs line 47): the CRC16
XMODEM of the whole key, reduced mod SLOT_NUM.  The receiver is unused by
the source function, so it is omitted here. -/
def get_slot (key : List Nat) : Nat :=
  crc16 key % SLOT_NUM

end SlotMap

/-- Tag on a slot range as defined locally in src/proxy/slot.rs. -/
inductive SlotRangeTag where
  | Migrating (dst : String)
  | None
deriving DecidableEq

/-- SlotRange of src/proxy/slot.rs.  The source field named end is a Lean
keyword and is called stop here. -/
structure SlotRange where
  start : Nat
  stop : Nat
  tag : SlotRangeTag

/-- The inner while loop of SlotMap::from_ranges (src/proxy/slot.rs lines
33..40), fuel-indexed to expose its (non)termination: while slot < stop,
if slot >= SLOT_NUM the source does continue, changing no state; otherwise
it pushes slot and increments.  Returns none when the fuel runs out before
the loop exits. -/
def from_ranges_loop (stop : Nat) : Nat → List Nat → Nat → Option (List Nat)
  | _, _, 0 => none
  | slot, slots, fuel + 1 =>
    if slot < stop then
      if SLOT_NUM ≤ slot then from_ranges_loop stop slot slots fuel
      else from_ranges_loop stop (slot + 1) (slots ++ [slot]) fuel
    else some slots

/-- The per-address body of SlotMap::from_ranges: expand every range with
the fuel-indexed loop, propagating fuel exhaustion. -/
def from_ranges_expand (ranges : List SlotRange) (fuel : Nat) : Option (List Nat) :=
  ranges.foldl
    (fun acc r => acc.bind (fun slots => from_ranges_loop r.stop r.start slots fuel))
    (some [])

/-- SlotMapData of src/proxy/slot.rs: a flat array of optional backend
indices plus the list of backend addresses. -/
structure SlotMapData where
  slot_arr : List (Option Nat)
  addrs : List String

namespace SlotMapData

/-- Embedding of SlotMapData::new (src/proxy/slot.rs lines 67..85).  The
input HashMap is modelled as an association list in iteration order.  For
each address the source pushes the address and then writes the new index
into slot_arr at every listed slot; Vec::get_mut on an out-of-range index
yields None so the write is a no-op, exactly as List.set is. -/
def write_slots (j : Nat) (arr : List (Option Nat)) (slots : List Nat) :
    List (Option Nat) :=
  slots.foldl (fun arr s => arr.set s (some j)) arr

/-- One step of the construction fold of SlotMapData::new: push the
address, then write the new index at every listed slot. -/
def new_step (acc : List (Option Nat) × List String) (p : String × List Nat) :
    List (Option Nat) × List String :=
  let addrs := acc.2 ++ [p.1]
  (write_slots (addrs.length - 1) acc.1 p.2, addrs)

/-- Embedding of SlotMapData::new (src/proxy/slot.rs lines 67..85), with
write_slots and new_step naming its loops. -/
def new (slot_map : List (String × List Nat)) : SlotMapData :=
  let res := slot_map.foldl new_step (List.replicate SLOT_NUM none, [])
  ⟨res.1, res.2⟩

/-- Embedding of SlotMapData::get (src/proxy/slot.rs lines 87..90). -/
def get (d : SlotMapData) (slot : Nat) : Option String :=
  (d.slot_arr[slot]?.bind id).bind (fun i => d.addrs[i]?)

end SlotMapData

/-- Split a byte list at the first occurrence of the byte b: the bytes
before it and the bytes after it, or none when b does not occur. -/
def split_at_first (b : Nat) : List Nat → Option (List Nat × List Nat)
  | [] => none
  | x :: xs =>
    if x = b then some ([], xs)
    else (split_at_first b xs).map (fun p => (x :: p.1, p.2))

/-- Written from the spec's words (section 4.2), for comparison with the
source's SlotMap::get_slot: find the first opening brace (byte 123); if
found, look for a closing brace (byte 125) after it; if both are present
and the content between them is non-empty, hash only that content,
otherwise hash the whole key. -/
def get_slot_hashtag_spec (key : List Nat) : Nat :=
  let content : Option (List Nat) :=
    match split_at_first 123 key with
    | none => none
    | some p =>
      match split_at_first 125 p.2 with
      | none => none
      | some q => if q.1 = [] then none else some q.1
  match content with
  | some tag => crc16 tag % SLOT_NUM
  | none => crc16 key % SLOT_NUM

/-! ## protocol/resp.rs: the RESP value types

The file src/protocol/resp.rs is not part of the sources; the shapes of
BulkStr, Array and Resp are modelled from their uses in
src/protocol/decoder.rs and src/proxy/session.rs and from the spec
(section 4.1): five shapes selected by a prefix byte, bulk strings and
arrays may be nil. -/

/-- Modelled from the spec: BulkStr of protocol/resp.rs, a binary-safe
string or the nil bulk string. -/
inductive BulkStr where
  | Str (s : List Nat)
  | Nil
deriving DecidableEq

mutual

/-- Modelled from the spec: Resp of protocol/resp.rs, the five RESP value
shapes used by decoder.rs and session.rs. -/
inductive Resp where
  | Simple (s : List Nat)
  | Error (s : List Nat)
  | Integer (s : List Nat)
  | Bulk (b : BulkStr)
  | Arr (a : RespArray)

/-- Modelled from the spec: Array of protocol/resp.rs, a nil array or a
list of RESP values. -/
inductive RespArray where
  | Nil
  | Arr (items : List Resp)

end

/-! ## protocol/decoder.rs: the RESP decoder

The asynchronous reader is modelled as a list of pending input bytes; a
decoding step returns the decoded value together with the bytes left in
the reader, or a DecodeError. -/

/-- The kind of an I/O failure; only end of input arises in the model. -/
inductive IoErr where
  | UnexpectedEof
deriving DecidableEq

/-- DecodeError of src/protocol/decoder.rs. -/
inductive DecodeError where
  | InvalidProtocol
  | Io (e : IoErr)
deriving DecidableEq

/-- Embedding of bytes_to_int (src/protocol/decoder.rs lines 41..57): an
optional leading minus sign, then a fold over decimal digits; any
non-digit fails with InvalidProtocol. -/
def bytes_to_int (bytes : List Nat) : Except DecodeError Int :=
  let fr : Int × List Nat :=
    match bytes with
    | b :: bs => if b = 45 then (-1, bs) else (1, bytes)
    | [] => (1, [])
  let folded : Except DecodeError Int :=
    fr.2.foldl
      (fun sum i =>
        sum.bind (fun s =>
          if 48 ≤ i ∧ i ≤ 57 then Except.ok (s * 10 + ((i : Int) - 48))
          else Except.error DecodeError.InvalidProtocol))
      (Except.ok 0)
  folded.map (fun i => i * fr.1)

/-- Model of tokio read_until with the LF delimiter: return the bytes up
to and including the first LF (or the whole input at end of stream),
together with the unread rest. -/
def read_until_lf : List Nat → List Nat × List Nat
  | [] => ([], [])
  | b :: bs =>
    if b = 10 then ([10], bs)
    else
      let p := read_until_lf bs
      (b :: p.1, p.2)

/-- Model of tokio read_exact: read exactly n bytes or fail with an
unexpected-end-of-input I/O error. -/
def read_exact (n : Nat) (input : List Nat) : Except DecodeError (List Nat × List Nat) :=
  if n ≤ input.length then Except.ok (input.take n, input.drop n)
  else Except.error (DecodeError.Io IoErr.UnexpectedEof)

/-- Embedding of decode_line (src/protocol/decoder.rs lines 87..101):
read up to the first LF; a line of total length at most 2 is
InvalidProtocol, otherwise the last two bytes are truncated away. -/
def decode_line (input : List Nat) : Except DecodeError (List Nat × List Nat) :=
  let p := read_until_lf input
  if p.1.length ≤ 2 then Except.error DecodeError.InvalidProtocol
  else Except.ok (p.1.take (p.1.length - 2), p.2)

/-- Embedding of decode_len (src/protocol/decoder.rs lines 59..66):
decode a line and parse it as a signed integer. -/
def decode_len (input : List Nat) : Except DecodeError (Int × List Nat) :=
  (decode_line input).bind (fun p => (bytes_to_int p.1).map (fun l => (l, p.2)))

/-- Embedding of decode_bulk_str (src/protocol/decoder.rs lines 68..85):
decode the length; for a negative length read zero bytes and produce Nil,
otherwise read length + 2 bytes (the content and its CRLF) and truncate
to the content. -/
def decode_bulk_str (input : List Nat) : Except DecodeError (BulkStr × List Nat) :=
  (decode_len input).bind (fun p =>
    let len := p.1
    let read_len : Nat := if len < 0 then 0 else len.toNat + 2
    (read_exact read_len p.2).bind (fun q =>
      if len < 0 then Except.ok (BulkStr.Nil, q.2)
      else Except.ok (BulkStr.Str (q.1.take len.toNat), q.2)))

/-! ## common/cluster.rs types

The file common/cluster.rs is not part of the sources; the cluster-level
slot range tag, migration metadata, task metadata, node and host are
modelled from the spec (sections 3 and 6) and from their uses in
src/proxy/manager.rs and src/coordinator/sync.rs. -/

namespace Cluster

/-- Modelled from the spec: the migration metadata carried by a tag names
the source and destination addresses and an epoch (spec section 3). -/
structure MigrationMeta where
  epoch : Nat
  src : String
  dst : String
deriving DecidableEq

/-- Modelled from the spec: the cluster-level slot range tag of
common/cluster.rs with shapes None, Migrating and Importing. -/
inductive SlotRangeTag where
  | None
  | Migrating (meta : MigrationMeta)
  | Importing (meta : MigrationMeta)
deriving DecidableEq

/-- Modelled from the spec: the cluster-level slot range, a half-open
interval with a tag.  The source field named end is a Lean keyword and is
called stop here. -/
structure SlotRange where
  start : Nat
  stop : Nat
  tag : SlotRangeTag
deriving DecidableEq

/-- Modelled from the spec: MigrationTaskMeta of common/cluster.rs, the
per-task metadata carrying the cluster name and the tagged slot range. -/
structure MigrationTaskMeta where
  db_name : String
  slot_range : SlotRange
deriving DecidableEq

/-- Modelled from the spec: a Node names one backend process, its cluster
and the slot ranges it serves (spec section 3). -/
structure Node where
  cluster_name : String
  address : String
  slots : List SlotRange

/-- Modelled from the spec: a Host is a set of nodes sharing one
proxy-facing address, stamped with an epoch (spec section 3). -/
structure Host where
  address : String
  epoch : Nat
  nodes : List Node

end Cluster

/-! ## proxy/manager.rs: the meta manager -/

/-- DBError of proxy/database.rs (not part of the sources); modelled from
the spec error list, only OldEpoch is produced by set_meta. -/
inductive DBError where
  | OldEpoch
  | DBNotFound
deriving DecidableEq

/-- Modelled from the spec: DBMapFlags of common/db.rs, currently only
the FORCE flag. -/
structure DBMapFlags where
  force : Bool
deriving DecidableEq

/-- ProxyDBMeta of common/db.rs (not part of the sources): an epoch, the
flags and the local and peer topology payloads, whose type is left as a
parameter since set_meta only passes them through to the map builders. -/
structure ProxyDBMeta (P : Type) where
  epoch : Nat
  flags : DBMapFlags
  local_map : P
  peer_map : P

/-- The meta manager state relevant to set_meta: the atomic epoch and the
swappable meta-map snapshot, of abstract type M. -/
structure ManagerState (M : Type) where
  epoch : Nat
  meta_map : M

/-- Embedding of MetaManager::set_meta (src/proxy/manager.rs lines
137..173).  The construction of the new snapshot (DatabaseMap::from_db_map
plus the migration and deleting task map builders, none of which are part
of the sources) is abstracted into the build parameter; the source checks
the epoch gate first and returns OldEpoch without touching anything, and
otherwise stores the new snapshot and then the new epoch. -/
def set_meta {M P : Type} (build : M → ProxyDBMeta P → M)
    (st : ManagerState M) (db_meta : ProxyDBMeta P) :
    ManagerState M × Except DBError Unit :=
  if db_meta.epoch ≤ st.epoch ∧ db_meta.flags.force = false then
    (st, Except.error DBError.OldEpoch)
  else
    ({ epoch := db_meta.epoch, meta_map := build st.meta_map db_meta }, Except.ok ())

/-- MgrSubCmd of migration/task.rs (not part of the sources); modelled
from the spec: PreCheck, PreBlock or Commit. -/
inductive MgrSubCmd where
  | PreCheck
  | PreBlock
  | Commit
deriving DecidableEq

/-- SwitchError of migration/manager.rs (not part of the sources);
modelled from the spec error list and the variants used by
src/proxy/manager.rs.  MgrError stands for any further failure of the
migration map itself. -/
inductive SwitchError where
  | InvalidArg
  | NotReady
  | MgrError
deriving DecidableEq

/-- SwitchArg of migration/task.rs (not part of the sources): a version
string and the task metadata, as constructed in src/proxy/manager.rs. -/
structure SwitchArg where
  version : String
  meta : Cluster.MigrationTaskMeta
deriving DecidableEq

/-- Embedding of MetaManager::handle_switch (src/proxy/manager.rs lines
194..224).  A None tag is rejected with InvalidArg at once; a Migrating
tag is rewritten to an Importing tag with the same inner metadata; the
tag's inner epoch is compared against the current proxy epoch and NotReady
is returned when the proxy is behind; otherwise the call is delegated to
the migration map, abstracted as the inner parameter acting on a
migration-map state of abstract type G. -/
def handle_switch {G : Type}
    (inner : G → SwitchArg → MgrSubCmd → G × Except SwitchError Unit)
    (epoch : Nat) (mm : G) (switch_arg : SwitchArg) (sub_cmd : MgrSubCmd) :
    G × Except SwitchError Unit :=
  match switch_arg.meta.slot_range.tag with
  | Cluster.SlotRangeTag.None => (mm, Except.error SwitchError.InvalidArg)
  | Cluster.SlotRangeTag.Migrating m =>
    let task_meta : Cluster.MigrationTaskMeta :=
      { switch_arg.meta with
        slot_range := { switch_arg.meta.slot_range with
                        tag := Cluster.SlotRangeTag.Importing m } }
    if epoch < m.epoch then (mm, Except.error SwitchError.NotReady)
    else inner mm { version := switch_arg.version, meta := task_meta } sub_cmd
  | Cluster.SlotRangeTag.Importing m =>
    if epoch < m.epoch then (mm, Except.error SwitchError.NotReady)
    else inner mm { version := switch_arg.version, meta := switch_arg.meta } sub_cmd

/-! ## proxy/session.rs: the session pipeline and the CmdCtx reply channel

The reply channel pair created by new_command_pair lives in
proxy/command.rs, which is not part of the sources.  It is modelled from
the spec (section 3, CmdCtx; section 9, guaranteed reply on drop) as a
oneshot channel: the first send succeeds and stores the value, any later
send fails and changes nothing.  The channel state is the list of
successful writes, so that write counting is direct. -/

/-- CommandError of proxy/command.rs (not part of the sources); modelled
from the spec error list: Dropped for a context destroyed without a
reply, Canceled for a channel closed before a reply. -/
inductive CommandError where
  | Dropped
  | Canceled
deriving DecidableEq

/-- CommandResult of proxy/command.rs: a RESP reply or a command error. -/
def CommandResult : Type := Except CommandError Resp

/-- Modelled from the spec: one send on the oneshot reply channel.  The
first component is the channel after the send, the second reports whether
the send succeeded. -/
def channel_send (ch : List CommandResult) (r : CommandResult) :
    List CommandResult × Bool :=
  match ch with
  | [] => ([r], true)
  | w => (w, false)

namespace CmdCtx

/-- Embedding of CmdCtx::set_result (src/proxy/session.rs lines 60..65):
send the result on the reply channel; a failed send is only logged. -/
def set_result (ch : List CommandResult) (result : CommandResult) :
    List CommandResult :=
  (channel_send ch result).1

/-- Embedding of the Drop impl for CmdCtx (src/proxy/session.rs lines
49..53): try to send a Dropped error, ignoring failure. -/
def drop (ch : List CommandResult) : List CommandResult :=
  (channel_send ch (Except.error CommandError.Dropped)).1

end CmdCtx

/-- The lifecycle of one CmdCtx over its reply channel: in Rust,
set_result consumes the context so it runs at most once, and the Drop
impl runs exactly once at the end of every path — after set_result when a
result was delivered, or on its own when the context is destroyed without
a result. -/
def cmd_ctx_lifecycle (result : Option CommandResult) : List CommandResult :=
  match result with
  | some r => CmdCtx.drop (CmdCtx.set_result [] r)
  | none => CmdCtx.drop []

/-- SessionError of src/proxy/session.rs. -/
inductive SessionError where
  | Io (e : IoErr)
  | CmdErr (e : CommandError)
  | InvalidProtocol
  | Canceled
  | Other
deriving DecidableEq

/-- Byte list of a Lean string, one byte per character. -/
def strToBytes (s : String) : List Nat :=
  s.data.map Char.toNat

/-- The synthesized diagnostic text of src/proxy/session.rs line 149. -/
def err_invalid_protocol : List Nat :=
  strToBytes ("Err invalid protocol")

/-- Embedding of one iteration of the read loop of handle_read
(src/proxy/session.rs lines 127..169), applied to the result of decoding
one frame.  It returns the updated handler state, the reply channels
enqueued into the FIFO towards the writer during the iteration, and the
session error terminating the loop, if any.  On a decoded frame the
handler receives the fresh channel (modelled by the handle_cmd parameter)
and its receiver is enqueued; on InvalidProtocol a synthesized error
reply is sent on a fresh channel, the receiver is still enqueued, and the
loop terminates with SessionError::InvalidProtocol; on an I/O error
nothing is enqueued. -/
def handle_read_step {H : Type}
    (handle_cmd : H → List CommandResult → H × List CommandResult)
    (handler : H) (res : Except DecodeError Resp) :
    H × List (List CommandResult) × Option SessionError :=
  match res with
  | Except.ok _resp =>
    let hc := handle_cmd handler []
    (hc.1, [hc.2], none)
  | Except.error DecodeError.InvalidProtocol =>
    let reply : Resp := Resp.Error err_invalid_protocol
    let ch := CmdCtx.set_result [] (Except.ok reply)
    (handler, [ch], some SessionError.InvalidProtocol)
  | Except.error (DecodeError.Io e) =>
    (handler, [], some (SessionError.Io e))

/-- Decimal digits of a natural number as bytes. -/
def natBytes (n : Nat) : List Nat :=
  strToBytes (toString n)

mutual

/-- Modelled from the spec: resp_to_buf of protocol/encoder.rs (not part
of the sources), serializing a RESP value per spec section 4.1: prefix
byte, payload, CRLF line terminators, nil bulk and nil array encoded with
length -1. -/
def resp_to_buf : Resp → List Nat
  | Resp.Simple s => 43 :: (s ++ [13, 10])
  | Resp.Error s => 45 :: (s ++ [13, 10])
  | Resp.Integer s => 58 :: (s ++ [13, 10])
  | Resp.Bulk (BulkStr.Str s) =>
    (36 :: natBytes s.length) ++ [13, 10] ++ s ++ [13, 10]
  | Resp.Bulk BulkStr.Nil => [36, 45, 49, 13, 10]
  | Resp.Arr a => array_to_buf a

/-- Modelled from the spec: serialization of a RESP array. -/
def array_to_buf : RespArray → List Nat
  | RespArray.Nil => [42, 45, 49, 13, 10]
  | RespArray.Arr items => (42 :: natBytes items.length) ++ [13, 10] ++ resps_to_buf items

/-- Modelled from the spec: serialization of a list of RESP values. -/
def resps_to_buf : List Resp → List Nat
  | [] => []
  | r :: rs => resp_to_buf r ++ resps_to_buf rs

end

/-- Modelled from the spec: wait_response of proxy/command.rs (not part
of the sources); awaiting the receiver yields the written result, or a
Canceled error when the sender was destroyed without any write reaching
the channel. -/
def wait_response (ch : List CommandResult) : Except CommandError Resp :=
  match ch with
  | r :: _ => r
  | [] => Except.error CommandError.Canceled

/-- Debug rendering of a CommandError, as the Rust derive(Debug) prints
the unit variants. -/
def CommandError.debug_fmt : CommandError → String
  | CommandError.Dropped => "Dropped"
  | CommandError.Canceled => "Canceled"

/-- Embedding of write_to_backend (src/proxy/session.rs lines 197..223):
await the reply on the receiver; serialize a reply via resp_to_buf, or
render a command error through the literal format string of line 214.
The result is the byte sequence written to the client connection. -/
def write_to_backend (ch : List CommandResult) : List Nat :=
  match wait_response ch with
  | Except.ok resp => resp_to_buf resp
  | Except.error e =>
    strToBytes (("-Err cmd error " ++ CommandError.debug_fmt e) ++ "\r\n")

/-! ## coordinator/sync.rs: pushing topology to the proxies -/

/-- CoordinateError of coordinator/core.rs (not part of the sources);
modelled from the variants used in src/coordinator/sync.rs. -/
inductive CoordinateError where
  | MetaData
  | Redis
  | InvalidReply
deriving DecidableEq

/-- Embedding of DBMapFlags::to_arg of common/db.rs (not part of the
sources); modelled from the spec, section 6: the single flags token is
FORCE or NOFLAG. -/
def DBMapFlags.to_arg (f : DBMapFlags) : String :=
  if f.force then ("FORCE") else ("NOFLAG")

/-- Insert or replace a binding in an association list, in place. -/
def assoc_insert {α : Type} (k : String) (v : α) :
    List (String × α) → List (String × α)
  | [] => [(k, v)]
  | (k2, v2) :: rest =>
    if k2 = k then (k2, v) :: rest else (k2, v2) :: assoc_insert k v rest

/-- HashMap entry().or_insert_with() followed by an update, on an
association list: apply f to the present value, or to the default when
the key is absent, appending the new binding. -/
def assoc_update {α : Type} (k : String) (d : α) (f : α → α) :
    List (String × α) → List (String × α)
  | [] => [(k, f d)]
  | (k2, v) :: rest =>
    if k2 = k then (k2, f v) :: rest else (k2, v) :: assoc_update k d f rest

/-- The db_map built by send_meta (src/coordinator/sync.rs lines
106..112): for each node, insert its slots under its address inside the
entry of its cluster.  HashMaps are modelled as association lists in
iteration order. -/
def build_db_map (nodes : List Cluster.Node) :
    List (String × List (String × List Cluster.SlotRange)) :=
  nodes.foldl
    (fun m node =>
      assoc_update node.cluster_name [] (assoc_insert node.address node.slots) m)
    []

/-- Modelled from the spec: the wire form of one slot range tag (spec
section 6): NONE, or MIGRATING and IMPORTING followed by the source, the
destination and the task epoch. -/
def tag_args : Cluster.SlotRangeTag → List String
  | Cluster.SlotRangeTag.None => [("NONE")]
  | Cluster.SlotRangeTag.Migrating m => [("MIGRATING"), m.src, m.dst, toString m.epoch]
  | Cluster.SlotRangeTag.Importing m => [("IMPORTING"), m.src, m.dst, toString m.epoch]

/-- Modelled from the spec: the wire form of one slot range (spec section
6): start, end, then the tag tokens. -/
def slot_range_args (r : Cluster.SlotRange) : List String :=
  toString r.start :: toString r.stop :: tag_args r.tag

/-- Modelled from the spec: HostDBMap::db_map_to_args of common/db.rs
(not part of the sources), per the grammar of spec section 6: for every
(cluster, address) pair, the cluster, the address, the number of ranges
and the encoded ranges. -/
def db_map_to_args
    (m : List (String × List (String × List Cluster.SlotRange))) : List String :=
  (m.map (fun c =>
    (c.2.map (fun a =>
      c.1 :: a.1 :: toString a.2.length :: (a.2.map slot_range_args).flatten)).flatten)).flatten

/-- The command assembled by send_meta (src/coordinator/sync.rs lines
113..120): UMCTL, the subcommand, the epoch, the flags token, then the
encoded slot arguments. -/
def send_meta_cmd (host : Cluster.Host) (sub_command : String)
    (flags : DBMapFlags) : List String :=
  [("UMCTL"), sub_command, toString host.epoch, flags.to_arg]
    ++ db_map_to_args (build_db_map host.nodes)

/-- The reply handling of send_meta (src/coordinator/sync.rs lines
128..137): a reply of the RESP Error shape is InvalidReply, any other
reply is success. -/
def send_meta_handle_reply (resp : Resp) : Except CoordinateError Unit :=
  match resp with
  | Resp.Error _ => Except.error CoordinateError.InvalidReply
  | _ => Except.ok ()

/-! ## Helper lemmas -/

theorem split_at_first_eq_none {b : Nat} {key : List Nat} (h : b ∉ key) :
    split_at_first b key = none := by
  induction key with
  | nil => rfl
  | cons x xs ih =>
    simp only [List.mem_cons, not_or] at h
    have hx : ¬x = b := fun hxb => h.1 hxb.symm
    simp [split_at_first, hx, ih h.2]

/-! ## C1: slot computation and the hashtag rule -/

set_option maxRecDepth 4000 in
/-- C1 (counterexample): the claim says the hash of a key carrying the
hashtag foo{bar}baz (bytes below) is computed over bar only, so that its
slot equals the slot of bar; the source's SlotMap::get_slot hashes the
whole key and the two slots differ (15701 versus 5061). -/
theorem get_slot_hashtag_counterexample :
    SlotMap.get_slot [102, 111, 111, 123, 98, 97, 114, 125, 98, 97, 122] ≠
      SlotMap.get_slot [98, 97, 114] := by
  decide

/-- C1 (amended): for every key the slot is CRC16 XMODEM of the whole key
mod 16384 — hashtags are never extracted — the result is always below
16384, and the source agrees with the spec's hashtag rule exactly on keys
without an opening brace (byte 123). -/
theorem get_slot_whole_key :
    ∀ key : List Nat,
      SlotMap.get_slot key = crc16 key % SLOT_NUM ∧
      SlotMap.get_slot key < SLOT_NUM ∧
      (123 ∉ key → SlotMap.get_slot key = get_slot_hashtag_spec key) := by
  intro key
  refine ⟨rfl, Nat.mod_lt _ (by decide), fun h => ?_⟩
  simp [SlotMap.get_slot, get_slot_hashtag_spec, split_at_first_eq_none h]

/-! ## C2: the slot-range expansion loop does not terminate -/

/-- C2: the while loop of SlotMap::from_ranges never terminates on a range
whose end exceeds SLOT_NUM: with start 16384 and end 16385 the loop body
hits continue without advancing, so no amount of fuel makes the loop (or
the expansion of such a range) produce a result. -/
theorem from_ranges_loop_diverges :
    ∀ (fuel : Nat) (acc : List Nat),
      from_ranges_loop 16385 16384 acc fuel = none ∧
      from_ranges_expand [⟨16384, 16385, SlotRangeTag.None⟩] fuel = none := by
  have loop : ∀ (fuel : Nat) (acc : List Nat),
      from_ranges_loop 16385 16384 acc fuel = none := by
    intro fuel
    induction fuel with
    | zero => intro acc; rfl
    | succ n ih =>
      intro acc
      have : from_ranges_loop 16385 16384 acc (n + 1) =
          from_ranges_loop 16385 16384 acc n := by
        simp [from_ranges_loop, SLOT_NUM]
      rw [this]; exact ih acc
  intro fuel acc
  refine ⟨loop fuel acc, ?_⟩
  simp [from_ranges_expand, loop fuel []]

/-! ## C3: the epoch gate of set_meta -/

/-- C3: set_meta returns OldEpoch exactly when the new epoch is at most
the current one and force is unset; on that error the state (epoch and
snapshot) is unchanged; on success the stored epoch becomes the new
meta's epoch, and without force a success strictly increases the epoch. -/
theorem set_meta_epoch_gate :
    ∀ (M P : Type) (build : M → ProxyDBMeta P → M) (st : ManagerState M)
      (m : ProxyDBMeta P),
      ((set_meta build st m).2 = Except.error DBError.OldEpoch ↔
        m.epoch ≤ st.epoch ∧ m.flags.force = false) ∧
      ((set_meta build st m).2 = Except.error DBError.OldEpoch →
        (set_meta build st m).1 = st) ∧
      ((set_meta build st m).2 = Except.ok () →
        (set_meta build st m).1.epoch = m.epoch) ∧
      ((set_meta build st m).2 = Except.ok () → m.flags.force = false →
        st.epoch < (set_meta build st m).1.epoch) := by
  intro M P build st m
  by_cases h : m.epoch ≤ st.epoch ∧ m.flags.force = false
  · simp [set_meta, h]
  · have hok : ¬(m.epoch ≤ st.epoch ∧ m.flags.force = false) := h
    simp only [set_meta, if_neg hok]
    refine ⟨by simp [hok], by simp, by simp, fun _ hforce => ?_⟩
    have : ¬m.epoch ≤ st.epoch := fun hle => hok ⟨hle, hforce⟩
    exact Nat.lt_of_not_le this

/-! ## C6: every CmdCtx writes exactly once on its reply channel -/

/-- C6: over the two possible lifecycles of a CmdCtx — a result is set
and the context is then destroyed, or the context is destroyed without a
result — exactly one successful write lands on the reply channel: the
real result when one was set, a synthesized Dropped error otherwise. -/
theorem cmd_ctx_reply_pairing :
    ∀ result : Option CommandResult,
      (cmd_ctx_lifecycle result).length = 1 ∧
      (∀ r, result = some r → cmd_ctx_lifecycle result = [r]) ∧
      (result = none →
        cmd_ctx_lifecycle result = [Except.error CommandError.Dropped]) := by
  intro result
  cases result <;>
    simp [cmd_ctx_lifecycle, CmdCtx.drop, CmdCtx.set_result, channel_send]

/-! ## C7: the invalid-protocol diagnostic -/

/-- C7: when the session reader hits an InvalidProtocol decode error, the
iteration enqueues exactly one reply channel into the FIFO, already
carrying the synthesized Error reply reading Err invalid protocol, and
terminates the reader with the InvalidProtocol session error; the writer
serializes that reply to the bytes -Err invalid protocol followed by
CRLF. -/
theorem invalid_protocol_reply :
    ∀ (H : Type) (handle_cmd : H → List CommandResult → H × List CommandResult)
      (handler : H),
      handle_read_step handle_cmd handler (Except.error DecodeError.InvalidProtocol) =
        (handler, [[Except.ok (Resp.Error err_invalid_protocol)]],
          some SessionError.InvalidProtocol) ∧
      write_to_backend [Except.ok (Resp.Error err_invalid_protocol)] =
        strToBytes ("-Err invalid protocol\r\n") := by
  intro H handle_cmd handler
  exact ⟨rfl, by decide⟩

/-! ## C4: the epoch gate and tag conversion of handle_switch -/

/-- C4: provided the migration map itself never reports NotReady (its
code is not part of the sources; per the spec NotReady only arises from
the epoch gate), handle_switch returns NotReady exactly when the task
tag's epoch is strictly greater than the current proxy epoch; a Migrating
tag is rewritten to an Importing tag with the same inner metadata before
the call is delegated; a None tag is rejected with InvalidArg, the
migration-map state untouched. -/
theorem handle_switch_epoch_gate :
    ∀ (G : Type) (inner : G → SwitchArg → MgrSubCmd → G × Except SwitchError Unit)
      (epoch : Nat) (mm : G) (arg : SwitchArg) (sub : MgrSubCmd),
      (∀ g a c, (inner g a c).2 ≠ Except.error SwitchError.NotReady) →
      ((handle_switch inner epoch mm arg sub).2 = Except.error SwitchError.NotReady ↔
        ∃ m, (arg.meta.slot_range.tag = Cluster.SlotRangeTag.Migrating m ∨
              arg.meta.slot_range.tag = Cluster.SlotRangeTag.Importing m) ∧
          epoch < m.epoch) ∧
      (∀ m, arg.meta.slot_range.tag = Cluster.SlotRangeTag.Migrating m →
        m.epoch ≤ epoch →
        handle_switch inner epoch mm arg sub =
          inner mm
            { version := arg.version,
              meta := { arg.meta with
                        slot_range := { arg.meta.slot_range with
                                        tag := Cluster.SlotRangeTag.Importing m } } }
            sub) ∧
      (arg.meta.slot_range.tag = Cluster.SlotRangeTag.None →
        handle_switch inner epoch mm arg sub =
          (mm, Except.error SwitchError.InvalidArg)) := by
  intro G inner epoch mm arg sub hinner
  obtain ⟨ver, dbn, s0, s1, tag⟩ := arg
  cases tag with
  | None => simp [handle_switch]
  | Migrating m =>
    by_cases hlt : epoch < m.epoch
    · simp [handle_switch, hlt, Nat.not_le_of_lt hlt]
    · simp only [handle_switch, if_neg hlt]
      refine ⟨?_, ?_, ?_⟩
      · simp only [Cluster.SlotRangeTag.Migrating.injEq]
        constructor
        · intro hres
          exact absurd hres (hinner mm _ sub)
        · rintro ⟨m2, hm2 | hm2, he⟩
          · exact absurd (hm2 ▸ he) hlt
          · exact Cluster.SlotRangeTag.noConfusion hm2
      · rintro m2 hm2 _
        obtain rfl : m = m2 := by
          injection hm2
        rfl
      · intro hnone
        exact Cluster.SlotRangeTag.noConfusion hnone
  | Importing m =>
    by_cases hlt : epoch < m.epoch
    · simp [handle_switch, hlt, Nat.not_le_of_lt hlt]
    · simp only [handle_switch, if_neg hlt]
      refine ⟨?_, ?_, ?_⟩
      · constructor
        · intro hres
          exact absurd hres (hinner mm _ sub)
        · rintro ⟨m2, hm2 | hm2, he⟩
          · exact Cluster.SlotRangeTag.noConfusion hm2
          · injection hm2 with hmeq
            exact absurd (hmeq ▸ he) hlt
      · rintro m2 hm2 _
        exact Cluster.SlotRangeTag.noConfusion hm2
      · intro hnone
        exact Cluster.SlotRangeTag.noConfusion hnone

/-- C4 (witness): at epoch 0, a switch whose Migrating tag carries epoch
1 is rejected NotReady, instantiating the theorem with a concrete
migration map that always succeeds. -/
theorem handle_switch_epoch_gate_witness :
    (handle_switch (fun (g : Nat) _ _ => (g, Except.ok ())) 0 0
        ⟨"v1", ⟨"db1", ⟨0, 10, Cluster.SlotRangeTag.Migrating ⟨1, "src1", "dst1"⟩⟩⟩⟩
        MgrSubCmd.Commit).2 = Except.error SwitchError.NotReady := by
  exact (handle_switch_epoch_gate Nat (fun g _ _ => (g, Except.ok ())) 0 0
      ⟨"v1", ⟨"db1", ⟨0, 10, Cluster.SlotRangeTag.Migrating ⟨1, "src1", "dst1"⟩⟩⟩⟩
      MgrSubCmd.Commit (by intro g a c; simp)).1.mpr
    ⟨⟨1, "src1", "dst1"⟩, Or.inl rfl, by decide⟩

/-! ## C8: the reply handling and command shape of send_meta -/

/-- C8: send_meta fails with InvalidReply exactly when the proxy's reply
is of the RESP Error shape and succeeds on every other shape, and the
command it sends is UMCTL, the subcommand, the epoch, the flags token,
then the encoded slot arguments. -/
theorem send_meta_reply_and_shape :
    ∀ (resp : Resp) (host : Cluster.Host) (sub : String) (flags : DBMapFlags),
      (send_meta_handle_reply resp = Except.error CoordinateError.InvalidReply ↔
        ∃ s, resp = Resp.Error s) ∧
      (send_meta_handle_reply resp = Except.ok () ↔ ∀ s, resp ≠ Resp.Error s) ∧
      send_meta_cmd host sub flags =
        ("UMCTL") :: sub :: toString host.epoch :: DBMapFlags.to_arg flags ::
          db_map_to_args (build_db_map host.nodes) := by
  intro resp host sub flags
  refine ⟨?_, ?_, rfl⟩ <;>
    cases resp <;> simp [send_meta_handle_reply]

/-! ## Decoder line lemmas -/

theorem read_until_lf_append (pre post : List Nat) (h : 10 ∉ pre) :
    read_until_lf (pre ++ 10 :: post) = (pre ++ [10], post) := by
  induction pre with
  | nil => simp [read_until_lf]
  | cons b bs ih =>
    simp only [List.mem_cons, not_or] at h
    have hb : ¬b = 10 := fun hb => h.1 hb.symm
    simp [read_until_lf, hb, ih h.2]

theorem decode_line_split (pre post : List Nat) (h : 10 ∉ pre) :
    decode_line (pre ++ 10 :: post) =
      if pre.length < 2 then Except.error DecodeError.InvalidProtocol
      else Except.ok (pre.take (pre.length - 1), post) := by
  unfold decode_line
  rw [read_until_lf_append pre post h]
  by_cases hlen : pre.length < 2
  · have h2 : (pre ++ [10]).length ≤ 2 := by
      simp only [List.length_append, List.length_singleton]
      omega
    simp [h2, hlen]
    omega
  · have h2 : ¬(pre ++ [10]).length ≤ 2 := by
      simp only [List.length_append, List.length_singleton]
      omega
    rw [if_neg (by simpa using h2), if_neg hlen]
    have hl : (pre ++ [10]).length - 2 = pre.length - 1 := by
      simp only [List.length_append, List.length_singleton]
      omega
    rw [hl, List.take_append_of_le_length (by omega)]

/-! ## C9: decode_line strips two bytes without checking for CR -/

/-- C9: a buffered line read up to the first LF is accepted exactly when
its total length exceeds 2 (the bytes before the LF number at least 2),
and the accepted content is the line with its last two bytes removed —
the LF and whatever byte precedes it, with no check that it is a CR — so
a line closed by a lone LF loses its final content byte; any shorter
line, the bare CRLF included, is InvalidProtocol. -/
theorem decode_line_behavior :
    ∀ (pre post : List Nat), 10 ∉ pre →
      (2 ≤ pre.length →
        decode_line (pre ++ 10 :: post) =
          Except.ok (pre.take (pre.length - 1), post)) ∧
      (pre.length < 2 →
        decode_line (pre ++ 10 :: post) =
          Except.error DecodeError.InvalidProtocol) := by
  intro pre post h
  have hs := decode_line_split pre post h
  exact ⟨fun h2 => by rw [hs, if_neg (Nat.not_lt_of_le h2)],
    fun h2 => by rw [hs, if_pos h2]⟩

/-- C9 (witness): the line made of bytes a, b and a lone LF is accepted
as the single byte a — the b before the LF is silently stripped. -/
theorem decode_line_behavior_witness :
    decode_line [97, 98, 10] = Except.ok ([97], []) := by
  exact (decode_line_behavior [97, 98] [] (by decide)).1 (by decide)

/-! ## C5: bulk-string lengths -/

/-- C5 (counterexample): the claim says a bulk length of -2 (any negative
other than -1) fails the decode; the source tests only len less than 0,
so the frame with header -2 decodes successfully to the nil bulk
string. -/
theorem decode_bulk_str_neg_two :
    decode_bulk_str [45, 50, 13, 10] = Except.ok (BulkStr.Nil, []) := by
  rfl

/-- C5 (amended): for a bulk-string frame whose header line parses to the
integer L, any negative L — not only -1 — decodes to Nil consuming no
body bytes, and a non-negative L decodes to the next L bytes of the body
(L = 0 giving the empty bulk string), consuming the L bytes and the two
terminator bytes after them. -/
theorem decode_bulk_str_amended :
    ∀ (header body : List Nat) (L : Int), 10 ∉ header → 1 ≤ header.length →
      bytes_to_int header = Except.ok L →
      (L < 0 →
        decode_bulk_str (header ++ 13 :: 10 :: body) =
          Except.ok (BulkStr.Nil, body)) ∧
      (0 ≤ L → L.toNat + 2 ≤ body.length →
        decode_bulk_str (header ++ 13 :: 10 :: body) =
          Except.ok (BulkStr.Str (body.take L.toNat),
            body.drop (L.toNat + 2))) := by
  intro header body L h10 hlen hint
  have hpre : (10 : Nat) ∉ header ++ [13] := by
    intro hmem
    rcases List.mem_append.mp hmem with hm | hm
    · exact h10 hm
    · simp at hm
  have hline : decode_line (header ++ 13 :: 10 :: body) =
      Except.ok (header, body) := by
    have hp := decode_line_split (header ++ [13]) body hpre
    rw [if_neg (by simp only [List.length_append, List.length_singleton]; omega)] at hp
    have htake : (header ++ [13]).take ((header ++ [13]).length - 1) = header := by
      have h1 : (header ++ [13]).length - 1 = header.length := by
        simp only [List.length_append, List.length_singleton]
        omega
      rw [h1, List.take_left]
    rw [htake] at hp
    have heq : (header ++ [13]) ++ 10 :: body = header ++ 13 :: 10 :: body := by
      simp
    rw [heq] at hp
    exact hp
  have hlenres : decode_len (header ++ 13 :: 10 :: body) = Except.ok (L, body) := by
    unfold decode_len
    rw [hline]
    simp only [Except.bind]
    rw [hint]
    rfl
  constructor
  · intro hneg
    unfold decode_bulk_str
    rw [hlenres]
    simp only [Except.bind, if_pos hneg]
    have hre : read_exact 0 body = Except.ok ([], body) := by
      simp [read_exact]
    rw [hre]
  · intro hpos hbody
    have hnotneg : ¬L < 0 := Int.not_lt.mpr hpos
    unfold decode_bulk_str
    rw [hlenres]
    simp only [Except.bind, if_neg hnotneg]
    have hre : read_exact (L.toNat + 2) body =
        Except.ok (body.take (L.toNat + 2), body.drop (L.toNat + 2)) := by
      rw [read_exact, if_pos hbody]
    rw [hre]
    simp only [Except.bind, if_neg hnotneg]
    rw [List.take_take, show min L.toNat (L.toNat + 2) = L.toNat from by omega]

/-- C5 (amended, witness): the frame with header -1 decodes to the nil
bulk string. -/
theorem decode_bulk_str_amended_witness :
    decode_bulk_str [45, 49, 13, 10] = Except.ok (BulkStr.Nil, []) := by
  exact (decode_bulk_str_amended [45, 49] [] (-1) (by decide) (by decide)
    (by rfl)).1 (by decide)

/-! ## Slot map construction lemmas -/

theorem write_slots_length (j : Nat) (arr : List (Option Nat)) (slots : List Nat) :
    (SlotMapData.write_slots j arr slots).length = arr.length := by
  induction slots generalizing arr with
  | nil => rfl
  | cons t ts ih =>
    show (SlotMapData.write_slots j (arr.set t (some j)) ts).length = arr.length
    rw [ih, List.length_set]

theorem new_fold_length (sm : List (String × List Nat))
    (acc : List (Option Nat) × List String) :
    ((sm.foldl SlotMapData.new_step acc).1).length = acc.1.length := by
  induction sm generalizing acc with
  | nil => rfl
  | cons p ps ih =>
    rw [List.foldl_cons, ih]
    simp [SlotMapData.new_step, write_slots_length]

theorem write_slots_getElem_ne (j s : Nat) (arr : List (Option Nat))
    (slots : List Nat) (h : s ∉ slots) :
    (SlotMapData.write_slots j arr slots)[s]? = arr[s]? := by
  induction slots generalizing arr with
  | nil => rfl
  | cons t ts ih =>
    simp only [List.mem_cons, not_or] at h
    show (SlotMapData.write_slots j (arr.set t (some j)) ts)[s]? = arr[s]?
    rw [ih _ h.2, List.getElem?_set_ne (fun hts => h.1 hts.symm)]

theorem new_fold_getElem_ne (sm : List (String × List Nat))
    (acc : List (Option Nat) × List String) (s : Nat)
    (h : ∀ p ∈ sm, s ∉ p.2) :
    ((sm.foldl SlotMapData.new_step acc).1)[s]? = acc.1[s]? := by
  induction sm generalizing acc with
  | nil => rfl
  | cons p ps ih =>
    rw [List.foldl_cons, ih _ (fun q hq => h q (List.mem_cons_of_mem _ hq))]
    exact write_slots_getElem_ne _ _ _ _ (h p (List.mem_cons_self _ _))

theorem write_slots_filter (j : Nat) (arr : List (Option Nat))
    (slots : List Nat) (hlen : arr.length = SLOT_NUM) :
    SlotMapData.write_slots j arr slots =
      SlotMapData.write_slots j arr (slots.filter (fun s => s < SLOT_NUM)) := by
  induction slots generalizing arr with
  | nil => rfl
  | cons t ts ih =>
    by_cases ht : t < SLOT_NUM
    · have hf : (t :: ts).filter (fun s => s < SLOT_NUM) =
          t :: ts.filter (fun s => s < SLOT_NUM) := by
        simp [List.filter_cons, ht]
      rw [hf]
      show SlotMapData.write_slots j (arr.set t (some j)) ts =
        SlotMapData.write_slots j (arr.set t (some j))
          (ts.filter (fun s => s < SLOT_NUM))
      exact ih _ (by rw [List.length_set, hlen])
    · have hf : (t :: ts).filter (fun s => s < SLOT_NUM) =
          ts.filter (fun s => s < SLOT_NUM) := by
        simp [List.filter_cons, ht]
      rw [hf]
      show SlotMapData.write_slots j (arr.set t (some j)) ts =
        SlotMapData.write_slots j arr (ts.filter (fun s => s < SLOT_NUM))
      rw [List.set_eq_of_length_le (by rw [hlen]; omega)]
      exact ih _ hlen

theorem new_fold_filter (sm : List (String × List Nat))
    (acc : List (Option Nat) × List String) (hlen : acc.1.length = SLOT_NUM) :
    sm.foldl SlotMapData.new_step acc =
      (sm.map (fun p => (p.1, p.2.filter (fun s => s < SLOT_NUM)))).foldl
        SlotMapData.new_step acc := by
  induction sm generalizing acc with
  | nil => rfl
  | cons p ps ih =>
    rw [List.map_cons, List.foldl_cons, List.foldl_cons]
    have hstep : SlotMapData.new_step acc (p.1, p.2.filter (fun s => s < SLOT_NUM)) =
        SlotMapData.new_step acc p := by
      simp only [SlotMapData.new_step]
      rw [← write_slots_filter _ _ _ hlen]
    rw [hstep]
    exact ih _ (by simp [SlotMapData.new_step, write_slots_length, hlen])

/-! ## C10: totality of slot map construction and lookup -/

/-- C10: construction ignores out-of-range input slots as a no-op (the
map built from an input equals the one built with slots at least 16384
filtered out); lookup returns none, never failing, on any slot at least
16384 and on any in-range slot not covered by the input; and get_slot is
always strictly below 16384. -/
theorem slot_map_total :
    ∀ (slot_map : List (String × List Nat)) (slot : Nat) (key : List Nat),
      (SLOT_NUM ≤ slot → SlotMapData.get (SlotMapData.new slot_map) slot = none) ∧
      (slot < SLOT_NUM → (∀ p ∈ slot_map, slot ∉ p.2) →
        SlotMapData.get (SlotMapData.new slot_map) slot = none) ∧
      SlotMap.get_slot key < SLOT_NUM ∧
      SlotMapData.new slot_map =
        SlotMapData.new
          (slot_map.map (fun p => (p.1, p.2.filter (fun s => s < SLOT_NUM)))) := by
  intro slot_map slot key
  refine ⟨fun hge => ?_, fun hlt hnc => ?_, Nat.mod_lt _ (by decide), ?_⟩
  · have harr : (SlotMapData.new slot_map).slot_arr.length = SLOT_NUM := by
      show ((slot_map.foldl SlotMapData.new_step _).1).length = SLOT_NUM
      rw [new_fold_length]
      simp
    have : (SlotMapData.new slot_map).slot_arr[slot]? = none :=
      List.getElem?_eq_none (by rw [harr]; exact hge)
    simp [SlotMapData.get, this]
  · have : (SlotMapData.new slot_map).slot_arr[slot]? = some none := by
      show ((slot_map.foldl SlotMapData.new_step
        (List.replicate SLOT_NUM none, [])).1)[slot]? = some none
      rw [new_fold_getElem_ne _ _ _ hnc]
      simp [List.getElem?_replicate, hlt]
    simp [SlotMapData.get, this]
  · show SlotMapData.mk _ _ = SlotMapData.mk _ _
    rw [new_fold_filter _ _ (by simp)]

end Undermoon
